import Mathlib

/-!
Verification development for the DailyPaperPodcast repository
(src/app.py and src/cloudflare_app.py).

The Python source is shallowly embedded below: pure helper functions
(build_prompt, generate_show_notes, merge_audio_files, the voice
selection of generate_audio_parallel) become Lean functions over the
same data; the regex-based JSON extraction of extract_conversation is
embedded as an executable matcher for the exact source pattern
together with a JSON parser modelling json.loads on the JSON subset
the program exchanges; the retry loop of extract_conversation and the
daily run gate of generate_podcast become explicit event traces and a
file-system state transformer.
-/

/-! ## Characters and brace bookkeeping

String literals below write the brace characters via escapes; `lbrace`
and `rbrace` name them once and for all.
-/

def lbrace : Char := Char.ofNat 123

def rbrace : Char := Char.ofNat 125

/-- A character the source pattern class `[^\x7b\x7d]` accepts: anything
but a brace. -/
def nonBrace (c : Char) : Bool := c != lbrace && c != rbrace

/-- A character list with no brace characters at all. -/
def braceFree (cs : List Char) : Bool := cs.all nonBrace

/-! ## JSON values and a model of `json.loads`

The program exchanges JSON objects, arrays, strings, integers,
booleans and null (the conversation payload).  `jsonParse` models
`json.loads` on that subset: floats, exponents and `\uXXXX` string
escapes are not produced by any value in this development.
-/

inductive Json where
  | jstr (s : String) : Json
  | jnum (n : Int) : Json
  | jarr (xs : List Json) : Json
  | jobj (kvs : List (String × Json)) : Json
  | jbool (b : Bool) : Json
  | jnull : Json

def Json.getField : Json → String → Option Json
  | Json.jobj fields, k => fields.lookup k
  | _, _ => none

/-- The four whitespace code points json.loads skips between tokens:
space, tab, line feed, carriage return. -/
def isJsonWs (c : Char) : Bool :=
  [32, 9, 10, 13].contains c.toNat

def skipWs (cs : List Char) : List Char := cs.dropWhile isJsonWs

/-- The two-character string escapes as code-point pairs: the letter
after the backslash and the code point it stands for (quote,
backslash, slash, then n, t, r, b, f). -/
def escapeTable : List (Nat × Nat) :=
  [(34, 34), (92, 92), (47, 47), (110, 10), (116, 9), (114, 13), (98, 8), (102, 12)]

/-- Decode a two-character string escape (the code point the escape
stands for), or nothing for an escape json.loads would reject. -/
def escapeChar (c : Char) : Option Char :=
  (escapeTable.lookup c.toNat).map Char.ofNat

/-- Parse the body of a JSON string literal (the opening quote already
consumed), returning the decoded string and the rest of the input. -/
def parseStringBody : List Char → Option (String × List Char)
  | [] => none
  | c :: cs =>
    if c == '"' then some ("", cs)
    else if c == '\\' then
      match cs with
      | [] => none
      | e :: cs2 =>
        match escapeChar e with
        | none => none
        | some ch =>
          match parseStringBody cs2 with
          | none => none
          | some (s, rest) => some (String.mk (ch :: s.data), rest)
    else
      match parseStringBody cs with
      | none => none
      | some (s, rest) => some (String.mk (c :: s.data), rest)

def digitsToNat (ds : List Char) : Nat :=
  ds.foldl (fun acc c => acc * 10 + (c.toNat - 48)) 0

def parseNumber (cs : List Char) : Option (Json × List Char) :=
  match cs with
  | '-' :: rest =>
    let ds := rest.takeWhile Char.isDigit
    if ds.isEmpty then none
    else some (Json.jnum (-(Int.ofNat (digitsToNat ds))), rest.dropWhile Char.isDigit)
  | _ =>
    let ds := cs.takeWhile Char.isDigit
    if ds.isEmpty then none
    else some (Json.jnum (Int.ofNat (digitsToNat ds)), cs.dropWhile Char.isDigit)

mutual

def parseVal : Nat → List Char → Option (Json × List Char)
  | 0, _ => none
  | fuel + 1, cs =>
    match skipWs cs with
    | [] => none
    | c :: rest =>
      if c == '"' then
        match parseStringBody rest with
        | some (s, r) => some (Json.jstr s, r)
        | none => none
      else if c == lbrace then
        parseObjItems fuel rest
      else if c == '[' then
        parseArrItems fuel rest
      else if c == 't' then
        match rest with
        | 'r' :: 'u' :: 'e' :: r => some (Json.jbool true, r)
        | _ => none
      else if c == 'f' then
        match rest with
        | 'a' :: 'l' :: 's' :: 'e' :: r => some (Json.jbool false, r)
        | _ => none
      else if c == 'n' then
        match rest with
        | 'u' :: 'l' :: 'l' :: r => some (Json.jnull, r)
        | _ => none
      else parseNumber (c :: rest)

def parseArrItems : Nat → List Char → Option (Json × List Char)
  | 0, _ => none
  | fuel + 1, cs =>
    match skipWs cs with
    | [] => none
    | c :: rest =>
      if c == ']' then some (Json.jarr [], rest)
      else
        match parseVal fuel cs with
        | none => none
        | some (v, r) =>
          match parseArrRest fuel r with
          | none => none
          | some (vs, r2) => some (Json.jarr (v :: vs), r2)

def parseArrRest : Nat → List Char → Option (List Json × List Char)
  | 0, _ => none
  | fuel + 1, cs =>
    match skipWs cs with
    | [] => none
    | c :: rest =>
      if c == ']' then some ([], rest)
      else if c == ',' then
        match parseVal fuel rest with
        | none => none
        | some (v, r) =>
          match parseArrRest fuel r with
          | none => none
          | some (vs, r2) => some (v :: vs, r2)
      else none

def parseObjItems : Nat → List Char → Option (Json × List Char)
  | 0, _ => none
  | fuel + 1, cs =>
    match skipWs cs with
    | [] => none
    | c :: rest =>
      if c == rbrace then some (Json.jobj [], rest)
      else if c == '"' then
        match parseStringBody rest with
        | none => none
        | some (k, r) =>
          match skipWs r with
          | ':' :: r2 =>
            match parseVal fuel r2 with
            | none => none
            | some (v, r3) =>
              match parseObjRest fuel r3 with
              | none => none
              | some (fs, r4) => some (Json.jobj ((k, v) :: fs), r4)
          | _ => none
      else none

def parseObjRest : Nat → List Char → Option (List (String × Json) × List Char)
  | 0, _ => none
  | fuel + 1, cs =>
    match skipWs cs with
    | [] => none
    | c :: rest =>
      if c == rbrace then some ([], rest)
      else if c == ',' then
        match skipWs rest with
        | '"' :: r =>
          match parseStringBody r with
          | none => none
          | some (k, r2) =>
            match skipWs r2 with
            | ':' :: r3 =>
              match parseVal fuel r3 with
              | none => none
              | some (v, r4) =>
                match parseObjRest fuel r4 with
                | none => none
                | some (fs, r5) => some ((k, v) :: fs, r5)
            | _ => none
        | _ => none
      else none

end

/-- Model of `json.loads`: parse one JSON value and require only
whitespace after it. -/
def jsonParse (cs : List Char) : Option Json :=
  match parseVal (2 * cs.length + 2) cs with
  | some (v, rest) => if (skipWs rest).isEmpty then some v else none
  | none => none

/-! ## The source's JSON extraction

app.py line 82 (and cloudflare_app.py line 88) scan the model response
with the pattern matching one balanced-brace object with at most one
nested brace level, and `re.search` returns the leftmost match.  For
this specific pattern the backtracking engine's answer is computed by
the deterministic scan below: at a given start, after the opening
brace the body greedily consumes non-brace characters and one-level
`(open, non-braces, close)` groups, and the first top-level closing
brace ends the match; if no match starts at a position, the search
moves one character right.
-/

/-- Match `[^\x7b\x7d]*` followed by a closing brace: the inside of the
one-level nested group of the pattern.  Returns the consumed
characters (closing brace included) and the rest. -/
def scanInner : List Char → Option (List Char × List Char)
  | [] => none
  | c :: cs =>
    if c == rbrace then some ([rbrace], cs)
    else if c == lbrace then none
    else
      match scanInner cs with
      | some (item, rest) => some (c :: item, rest)
      | none => none

/-- Consume the body of the pattern after the opening brace, up to and
including the first top-level closing brace.  Returns the consumed
characters and the rest.  `fuel` only needs to exceed the length of
the consumed part. -/
def matchBodyFuel : Nat → List Char → Option (List Char × List Char)
  | 0, _ => none
  | _ + 1, [] => none
  | fuel + 1, c :: cs =>
    if c == rbrace then some ([rbrace], cs)
    else if c == lbrace then
      match scanInner cs with
      | some (item, rest) =>
        match matchBodyFuel fuel rest with
        | some (m, r) => some (lbrace :: item ++ m, r)
        | none => none
      | none => none
    else
      match matchBodyFuel fuel cs with
      | some (m, r) => some (c :: m, r)
      | none => none

/-- `re.search` for the source pattern: try every start position left
to right, and return the matched substring of the first position that
matches. -/
def reSearch : List Char → Option (List Char)
  | [] => none
  | c :: cs =>
    if c == lbrace then
      match matchBodyFuel (cs.length + 1) cs with
      | some (m, _) => some (lbrace :: m)
      | none => reSearch cs
    else reSearch cs

/-- The value extract_conversation computes from the model response
text (app.py lines 82-86): `json.loads(json_match.group())` when the
pattern matches, `None`/raise when it does not. -/
def extract_from_response (cs : List Char) : Option Json :=
  match reSearch cs with
  | some m => jsonParse m
  | none => none

/-- Second definition, following the spec's words instead of the
source: "parse it as JSON and return the `conversation` field as the
result".  Compared against `extract_from_response`. -/
def extractConversationFieldSpec (cs : List Char) : Option Json :=
  match extract_from_response cs with
  | some j => Json.getField j "conversation"
  | none => none

/-! Shapes the source pattern matches in full: an opening brace, a
body of blocks (each block a non-brace character or a one-level
`(open, brace-free, close)` group), and a closing brace. -/

inductive Block where
  | ch (c : Char) : Block
  | nest (v : List Char) : Block

def Block.render : Block → List Char
  | Block.ch c => [c]
  | Block.nest v => lbrace :: v ++ [rbrace]

def renderBody (bs : List Block) : List Char := (bs.map Block.render).flatten

def renderObj (bs : List Block) : List Char := lbrace :: renderBody bs ++ [rbrace]

def goodBlock : Block → Bool
  | Block.ch c => nonBrace c
  | Block.nest v => braceFree v

def goodBlocks (bs : List Block) : Bool := bs.all goodBlock

lemma renderBody_cons (b : Block) (bs : List Block) :
    renderBody (b :: bs) = Block.render b ++ renderBody bs := by
  simp [renderBody]

lemma scanInner_braceFree (v : List Char) (t : List Char) (hv : braceFree v = true) :
    scanInner (v ++ rbrace :: t) = some (v ++ [rbrace], t) := by
  induction v with
  | nil => simp [scanInner]
  | cons c v ih =>
    have hc : nonBrace c = true := by
      have := hv
      simp [braceFree] at this
      exact this.1
    have hv2 : braceFree v = true := by
      have := hv
      simp [braceFree] at this
      exact (List.all_eq_true.mpr (fun x hx => this.2 x hx))
    have h1 : (c == rbrace) = false := by
      simp [nonBrace, Bool.and_eq_true] at hc
      simp [hc.2]
    have h2 : (c == lbrace) = false := by
      simp [nonBrace, Bool.and_eq_true] at hc
      simp [hc.1]
    simp [scanInner, h1, h2, ih hv2]

lemma matchBodyFuel_renderBody (bs : List Block) (hgood : goodBlocks bs = true) :
    ∀ (t : List Char) (fuel : Nat), (renderBody bs).length + 1 ≤ fuel →
      matchBodyFuel fuel (renderBody bs ++ rbrace :: t) =
        some (renderBody bs ++ [rbrace], t) := by
  induction bs with
  | nil =>
    intro t fuel hfuel
    match fuel, hfuel with
    | f + 1, _ => simp [renderBody, matchBodyFuel]
  | cons b bs ih =>
    intro t fuel hfuel
    have hb : goodBlock b = true := by
      simp [goodBlocks] at hgood
      exact hgood.1
    have hbs : goodBlocks bs = true := by
      simp [goodBlocks] at hgood
      exact List.all_eq_true.mpr (fun x hx => hgood.2 x hx)
    cases b with
    | ch c =>
      have hc : nonBrace c = true := hb
      have h1 : (c == rbrace) = false := by
        simp [nonBrace, Bool.and_eq_true] at hc
        simp [hc.2]
      have h2 : (c == lbrace) = false := by
        simp [nonBrace, Bool.and_eq_true] at hc
        simp [hc.1]
      rw [renderBody_cons]
      have hlen : (renderBody bs).length + 1 + 1 ≤ fuel := by
        have := hfuel
        rw [renderBody_cons] at this
        simp [Block.render] at this
        omega
      match fuel, hlen with
      | f + 1, hl =>
        have hf : (renderBody bs).length + 1 ≤ f := by omega
        have hih := ih hbs t f hf
        simp [Block.render, matchBodyFuel, h1, h2, hih]
    | nest v =>
      have hv : braceFree v = true := hb
      rw [renderBody_cons]
      have hlen2 : v.length + 2 + (renderBody bs).length + 1 ≤ fuel := by
        have := hfuel
        rw [renderBody_cons] at this
        simp [Block.render] at this
        omega
      match fuel, hlen2 with
      | f + 1, hl =>
        have hf : (renderBody bs).length + 1 ≤ f := by omega
        have harr : Block.render (Block.nest v) ++ renderBody bs ++ rbrace :: t =
            lbrace :: (v ++ rbrace :: (renderBody bs ++ rbrace :: t)) := by
          simp [Block.render]
        rw [harr]
        have hlb1 : (lbrace == rbrace) = false := by decide
        have hlb2 : (lbrace == lbrace) = true := by decide
        simp only [matchBodyFuel, hlb1, Bool.false_eq_true, if_false, hlb2, if_true,
          scanInner_braceFree v _ hv, ih hbs t f hf]
        simp [Block.render]

lemma reSearch_append_prose (p s : List Char) (hp : braceFree p = true) :
    reSearch (p ++ s) = reSearch s := by
  induction p with
  | nil => simp
  | cons c p ih =>
    have hc : nonBrace c = true := by
      simp [braceFree] at hp
      exact hp.1
    have hp2 : braceFree p = true := by
      simp [braceFree] at hp
      exact List.all_eq_true.mpr (fun x hx => hp.2 x hx)
    have h2 : (c == lbrace) = false := by
      simp [nonBrace, Bool.and_eq_true] at hc
      simp [hc.1]
    simp [reSearch, h2, ih hp2]

lemma reSearch_renderObj (bs : List Block) (p2 : List Char) (hgood : goodBlocks bs = true) :
    reSearch (renderObj bs ++ p2) = some (renderObj bs) := by
  have harr : renderObj bs ++ p2 = lbrace :: (renderBody bs ++ rbrace :: p2) := by
    simp [renderObj]
  rw [harr]
  have hlb : (lbrace == lbrace) = true := by decide
  have hfuel : (renderBody bs).length + 1 ≤ (renderBody bs ++ rbrace :: p2).length + 1 := by
    simp
  simp only [reSearch, hlb, if_true,
    matchBodyFuel_renderBody bs hgood p2 _ hfuel]
  simp [renderObj]

/-! ## The retry loop of extract_conversation (app.py lines 71-92)

The network call itself is external; `resp n` stands for what attempt
`n`'s response extraction produced (`none` when the attempt raised:
no pattern match, bad JSON, or a transport error).  The loop's
observable behaviour is the event trace: which attempts ran, which
sleeps happened, and how the loop ended.  The cloudflare_app.py
variant (lines 81-92) performs a single attempt with no loop.
-/

inductive RunEvent where
  | attempt (n : Nat) : RunEvent
  | sleepFor (seconds : Nat) : RunEvent
  | returned (j : Json) : RunEvent
  | raised : RunEvent

/-- One step of the loop `for attempt in range(1, max_retries + 1)`:
print/attempt, then on error sleep 2 seconds if attempts remain, else
raise.  `fuel` is the number of attempts still allowed. -/
def extractAttempts (resp : Nat → Option Json) : Nat → Nat → Nat → List RunEvent
  | 0, _, _ => []
  | fuel + 1, a, maxRetries =>
    RunEvent.attempt a ::
      match resp a with
      | some j => [RunEvent.returned j]
      | none =>
        if a < maxRetries then
          RunEvent.sleepFor 2 :: extractAttempts resp fuel (a + 1) maxRetries
        else
          [RunEvent.raised]

/-- The trace of app.py's extract_conversation for a given
`max_retries` (the source default is 3; the sleep length 2 is a
literal in the source). -/
def extract_conversation_events (resp : Nat → Option Json) (maxRetries : Nat) :
    List RunEvent :=
  extractAttempts resp maxRetries 1 maxRetries

/-- The trace of cloudflare_app.py's extract_conversation: one
attempt, return the parsed object or raise, no retry and no sleep. -/
def extract_conversation_cf_events (resp : Nat → Option Json) : List RunEvent :=
  RunEvent.attempt 1 ::
    match resp 1 with
    | some j => [RunEvent.returned j]
    | none => [RunEvent.raised]

def isAttemptEvent : RunEvent → Bool
  | RunEvent.attempt _ => true
  | _ => false

def isSleepEvent : RunEvent → Bool
  | RunEvent.sleepFor _ => true
  | _ => false

def countAttempts (tr : List RunEvent) : Nat := (tr.filter isAttemptEvent).length

def countSleeps (tr : List RunEvent) : Nat := (tr.filter isSleepEvent).length

/-- The shape the trace takes when every attempt fails, starting at
attempt `a` with `fuel` attempts allowed. -/
def allFailTrace : Nat → Nat → List RunEvent
  | 0, _ => []
  | fuel + 1, a =>
    RunEvent.attempt a ::
      (if fuel = 0 then [RunEvent.raised]
       else RunEvent.sleepFor 2 :: allFailTrace fuel (a + 1))

lemma extractAttempts_allFail (resp : Nat → Option Json) (hfail : ∀ n, resp n = none) :
    ∀ (fuel a m : Nat), a + fuel = m + 1 →
      extractAttempts resp fuel a m = allFailTrace fuel a := by
  intro fuel
  induction fuel with
  | zero => intro a m h; simp [extractAttempts, allFailTrace]
  | succ f ih =>
    intro a m h
    by_cases hf : f = 0
    · subst hf
      have hm : a = m := by omega
      subst hm
      simp [extractAttempts, allFailTrace, hfail a]
    · have ha : a < m := by omega
      have hrec := ih (a + 1) m (by omega)
      simp [extractAttempts, allFailTrace, hfail a, ha, hf, hrec]

lemma countAttempts_allFailTrace : ∀ (fuel a : Nat),
    countAttempts (allFailTrace fuel a) = fuel := by
  intro fuel
  induction fuel with
  | zero => intro a; simp [allFailTrace, countAttempts]
  | succ f ih =>
    intro a
    by_cases hf : f = 0
    · subst hf; simp [allFailTrace, countAttempts, isAttemptEvent]
    · simp only [allFailTrace, hf, if_false, countAttempts] at *
      simp [List.filter, isAttemptEvent, ih (a + 1)]

lemma countSleeps_allFailTrace : ∀ (fuel a : Nat),
    countSleeps (allFailTrace fuel a) = fuel - 1 := by
  intro fuel
  induction fuel with
  | zero => intro a; simp [allFailTrace, countSleeps]
  | succ f ih =>
    intro a
    by_cases hf : f = 0
    · subst hf; simp [allFailTrace, countSleeps, isSleepEvent]
    · have hrec := ih (a + 1)
      have hstep : allFailTrace (f + 1) a =
          RunEvent.attempt a :: RunEvent.sleepFor 2 :: allFailTrace f (a + 1) := by
        simp [allFailTrace, hf]
      rw [hstep]
      simp [countSleeps, List.filter_cons, isSleepEvent, isAttemptEvent] at hrec ⊢
      omega

lemma sleeps_allFailTrace : ∀ (fuel a : Nat),
    ∀ e ∈ allFailTrace fuel a, isSleepEvent e = true → e = RunEvent.sleepFor 2 := by
  intro fuel
  induction fuel with
  | zero => intro a e he; simp [allFailTrace] at he
  | succ f ih =>
    intro a e he hs
    by_cases hf : f = 0
    · subst hf
      simp [allFailTrace] at he
      rcases he with h | h <;> subst h <;> simp [isSleepEvent] at hs ⊢
    · simp only [allFailTrace, hf, if_false, List.mem_cons] at he
      rcases he with h | h | h
      · subst h; simp [isSleepEvent] at hs
      · subst h; rfl
      · exact ih (a + 1) e h hs

lemma getLast_allFailTrace : ∀ (fuel a : Nat), 1 ≤ fuel →
    (allFailTrace fuel a).getLast? = some RunEvent.raised := by
  intro fuel
  induction fuel with
  | zero => intro a h; omega
  | succ f ih =>
    intro a hpos
    by_cases hf : f = 0
    · subst hf; simp [allFailTrace]
    · have hf1 : 1 ≤ f := by omega
      have hrec := ih (a + 1) hf1
      match f, hf1 with
      | g + 1, _ =>
        simp only [allFailTrace]
        simp only [allFailTrace] at hrec
        simp [List.getLast?_cons_cons, hrec]

/-! ## Paper items and the prompt builder (app.py lines 42-68)

`joinNL` models Python's `"\n".join`; the prompt text is transcribed
from the source f-strings (their brace interpolations become explicit
concatenation). -/

structure PaperItem where
  title : String
  link : String
  description : String
deriving DecidableEq

def joinNL : List String → String
  | [] => ""
  | [s] => s
  | s :: rest => s ++ "\n" ++ joinNL rest

def paperLine (it : PaperItem) : String :=
  "- " ++ it.title ++ " (" ++ it.link ++ "): " ++ it.description

def paper_summaries (items : List PaperItem) : String :=
  joinNL (items.map paperLine)

/-- The triple-quoted `template` literal of build_prompt. -/
def promptTemplate : String :=
  "\n    \x7b\n        \"conversation\": [\n            \x7b\"speaker\": \"Brian\", \"text\": \"\"\x7d,\n            \x7b\"speaker\": \"Jenny\", \"text\": \"\"\x7d\n        ]\n    \x7d\n    "

def build_prompt (text : String) (items : List PaperItem) : String :=
  "🎙️ Welcome to Daily Papers! Today, we\x27re diving into the latest AI research in an engaging and "
  ++ "informative discussion. The goal is to make it a **medium-length podcast** that’s **engaging, natural, and insightful** while covering "
  ++ "the key points of each paper.\n\n"
  ++ "Here are today\x27s research papers:\n" ++ paper_summaries items ++ "\n\n"
  ++ "Convert this into a **conversational podcast-style discussion** between two experts, Brian and Jenny. "
  ++ "Ensure the conversation flows naturally, using a mix of **insightful analysis, casual phrasing, and occasional filler words** like \x27uhm\x27 and \x27you know\x27 "
  ++ "to keep it realistic. The tone should be engaging yet professional, making it interesting for the audience.\n\n"
  ++ "Each research paper should be **discussed meaningfully**, but avoid dragging the conversation too long. "
  ++ "Focus on key insights and practical takeaways. Keep the pacing dynamic and interactive.\n\n"
  ++ "Please return the conversation in **this exact JSON format**:\n" ++ promptTemplate

/-! ## Show notes builder (app.py lines 94-99) -/

def showNotesEntries (i : Nat) : List PaperItem → String
  | [] => ""
  | it :: rest =>
    toString (i + 1) ++ ". **" ++ it.title ++ "**\n   - " ++ it.description
      ++ "\n   - [Read More](" ++ it.link ++ ")\n\n" ++ showNotesEntries (i + 1) rest

def generate_show_notes (items : List PaperItem) : String :=
  "**Show Notes**\n\nIn today\x27s episode:\n\n" ++ showNotesEntries 0 items

/-! ## Audio synthesis (app.py lines 101-115)

The speech service is external; the program's own logic is the voice
choice per line, the output file name per index, and the index
alignment of the produced list. -/

structure DialogueLine where
  speaker : String
  text : String
deriving DecidableEq

structure SynthTask where
  outputFile : String
  text : String
  voice : String
deriving DecidableEq

/-- The voice expression of line 109: Ryan for the exact speaker
string "Brian", Ava for anything else. -/
def voiceFor (speaker : String) : String :=
  if speaker = "Brian" then "en-GB-RyanNeural" else "en-US-AvaMultilingualNeural"

def genTasks (i : Nat) : List DialogueLine → List SynthTask
  | [] => []
  | line :: rest =>
    { outputFile := "audio_" ++ toString i ++ ".mp3",
      text := line.text,
      voice := voiceFor line.speaker } :: genTasks (i + 1) rest

/-- The per-line synthesis tasks generate_audio_parallel launches, in
conversation order (the returned audio_files list is the outputFile
column of this list). -/
def generate_audio_parallel (conversation : List DialogueLine) : List SynthTask :=
  genTasks 0 conversation

/-! ## Audio merge (app.py lines 117-124)

An AudioSegment is its sample sequence; `AudioSegment.empty()` is `[]`
and `+=` is concatenation. -/

def merge_audio_files (clips : List (List Int)) : List Int :=
  clips.foldl (fun combined clip => combined ++ clip) []

/-! ## The daily run gate (app.py lines 138-161)

The file system visible to generate_podcast: the marker file, the
three artifacts, and the temporary per-line clip files.  The artifact
files hold the values written to them (the conversation file holds the
dialogue lines of the dumped object, the episode file the lines it was
merged from).  The external outcomes of one invocation are parameters:
what extract_conversation produced (or that it raised), whether the
synthesis gather raised, and which clip files had already been saved
when it did. -/

structure FS where
  lastRun : Option String
  convFile : Option (List DialogueLine)
  notesFile : Option String
  episodeFile : Option (List DialogueLine)
  tempClips : List String
deriving DecidableEq

inductive ExtractOutcome where
  | fails : ExtractOutcome
  | succeeds (lines : List DialogueLine) : ExtractOutcome

inductive CycleResult where
  | skipped : CycleResult
  | completed : CycleResult
  | failedGen : CycleResult
  | failedSynth : CycleResult
deriving DecidableEq

def clipNames (n : Nat) : List String :=
  (List.range n).map (fun i => "audio_" ++ toString i ++ ".mp3")

/-- One invocation of generate_podcast.  Gate first; on a stale
marker, write conversation and show notes, then synthesize; on
success, merge (writing the episode), delete this run's clip files and
write the marker; if the synthesis gather raises, stop with whatever
clip files were already saved still on disk. -/
def generate_podcast (today : String) (items : List PaperItem)
    (extract : ExtractOutcome) (synthOk : Bool) (doneClips : List String)
    (fs : FS) : FS × CycleResult :=
  if fs.lastRun = some today then (fs, CycleResult.skipped)
  else
    match extract with
    | ExtractOutcome.fails => (fs, CycleResult.failedGen)
    | ExtractOutcome.succeeds lines =>
      let fs1 : FS :=
        { fs with convFile := some lines, notesFile := some (generate_show_notes items) }
      if synthOk then
        let names := clipNames lines.length
        ({ fs1 with episodeFile := some lines,
                    tempClips := fs1.tempClips.filter (fun c => !names.contains c),
                    lastRun := some today }, CycleResult.completed)
      else
        ({ fs1 with tempClips := fs1.tempClips ++ doneClips }, CycleResult.failedSynth)

/-- The action of the "🔄 Force Generate Podcast" button (app.py lines
216-217): it calls generate_podcast directly; there is no bypass
flag. -/
def force_generate (today : String) (items : List PaperItem)
    (extract : ExtractOutcome) (synthOk : Bool) (doneClips : List String)
    (fs : FS) : FS × CycleResult :=
  generate_podcast today items extract synthOk doneClips fs

/-! ## Substring containment for the prompt properties -/

/-- `needle` occurs verbatim (contiguously) inside `hay`. -/
def containsSub (needle hay : List Char) : Prop :=
  ∃ s t, s ++ needle ++ t = hay

lemma containsSub_refl (n : List Char) : containsSub n n :=
  ⟨[], [], by simp⟩

lemma containsSub_appendLeft {n h : List Char} (x : List Char) :
    containsSub n h → containsSub n (x ++ h) := by
  rintro ⟨s, t, rfl⟩
  exact ⟨x ++ s, t, by simp⟩

lemma containsSub_appendRight {n h : List Char} (x : List Char) :
    containsSub n h → containsSub n (h ++ x) := by
  rintro ⟨s, t, rfl⟩
  exact ⟨s, t ++ x, by simp⟩

lemma containsSub_trans {a b c : List Char} :
    containsSub a b → containsSub b c → containsSub a c := by
  rintro ⟨s, t, rfl⟩ ⟨u, v, rfl⟩
  exact ⟨u ++ s, t ++ v, by simp⟩

lemma strData_append (a b : String) : (a ++ b).data = a.data ++ b.data := by
  cases a
  cases b
  rfl

lemma containsSub_joinNL (s : String) (l : List String) (hmem : s ∈ l) :
    containsSub s.data (joinNL l).data := by
  induction l with
  | nil => cases hmem
  | cons a rest ih =>
    cases rest with
    | nil =>
      have : s = a := by simpa using hmem
      subst this
      exact containsSub_refl _
    | cons b r2 =>
      rcases List.mem_cons.mp hmem with h | h
      · subst h
        have : joinNL (s :: b :: r2) = s ++ "\n" ++ joinNL (b :: r2) := by
          simp [joinNL]
        rw [this, strData_append, strData_append]
        exact containsSub_appendRight _
          (containsSub_appendRight _ (containsSub_refl _))
      · have heq : joinNL (a :: b :: r2) = a ++ "\n" ++ joinNL (b :: r2) := by
          simp [joinNL]
        rw [heq, strData_append, strData_append, List.append_assoc]
        exact containsSub_appendLeft _ (containsSub_appendLeft _ (ih h))

lemma containsSub_paperLine_title (it : PaperItem) :
    containsSub it.title.data (paperLine it).data := by
  simp only [paperLine, strData_append]
  exact containsSub_appendRight _ (containsSub_appendRight _ (containsSub_appendRight _
    (containsSub_appendRight _ (containsSub_appendLeft _ (containsSub_refl _)))))

lemma containsSub_paperLine_link (it : PaperItem) :
    containsSub it.link.data (paperLine it).data := by
  simp only [paperLine, strData_append]
  exact containsSub_appendRight _ (containsSub_appendRight _
    (containsSub_appendLeft _ (containsSub_refl _)))

lemma containsSub_paperLine_description (it : PaperItem) :
    containsSub it.description.data (paperLine it).data := by
  simp only [paperLine, strData_append]
  exact containsSub_appendLeft _ (containsSub_refl _)

lemma containsSub_summaries_prompt (t : String) (items : List PaperItem) :
    containsSub (paper_summaries items).data (build_prompt t items).data := by
  simp only [build_prompt, strData_append]
  exact containsSub_appendRight _ (containsSub_appendRight _ (containsSub_appendRight _
    (containsSub_appendRight _ (containsSub_appendRight _ (containsSub_appendRight _
      (containsSub_appendRight _ (containsSub_appendRight _
        (containsSub_appendLeft _ (containsSub_refl _)))))))))

lemma containsSub_template_prompt (t : String) (items : List PaperItem) :
    containsSub promptTemplate.data (build_prompt t items).data := by
  simp only [build_prompt, strData_append]
  exact containsSub_appendLeft _ (containsSub_refl _)

/-! ## Remaining helper lemmas -/

lemma foldl_append_flatten (cls : List (List Int)) :
    ∀ acc : List Int, cls.foldl (fun combined clip => combined ++ clip) acc =
      acc ++ cls.flatten := by
  induction cls with
  | nil => intro acc; simp
  | cons c cls ih => intro acc; simp [ih (acc ++ c)]

lemma genTasks_length (conv : List DialogueLine) :
    ∀ i0 : Nat, (genTasks i0 conv).length = conv.length := by
  induction conv with
  | nil => intro i0; simp [genTasks]
  | cons line rest ih => intro i0; simp [genTasks, ih (i0 + 1)]

lemma genTasks_getElem (conv : List DialogueLine) :
    ∀ (i0 i : Nat), (genTasks i0 conv)[i]? = (conv[i]?).map
      (fun line => { outputFile := "audio_" ++ toString (i0 + i) ++ ".mp3",
                     text := line.text, voice := voiceFor line.speaker }) := by
  induction conv with
  | nil => intro i0 i; simp [genTasks]
  | cons line rest ih =>
    intro i0 i
    cases i with
    | zero => simp [genTasks]
    | succ j =>
      simp only [genTasks, List.getElem?_cons_succ, ih (i0 + 1) j]
      have : i0 + 1 + j = i0 + (j + 1) := by omega
      rw [this]

/-! ## Claims -/

/-- Claim C1 (code bug evidence).  The spec says the UI's force
trigger bypasses the daily gate unconditionally and always
regenerates.  The button (its label is "Force Generate Podcast") calls
generate_podcast directly, and generate_podcast's own gate still
applies: with the RunMarker equal to the current calendar date, a
forced invocation skips and changes nothing. -/
theorem c1_force_trigger_still_gated :
    force_generate "2026-10-12" []
      (ExtractOutcome.succeeds [{ speaker := "Brian", text := "hello" }]) true []
      { lastRun := some "2026-10-12", convFile := none, notesFile := none,
        episodeFile := none, tempClips := [] } =
    ({ lastRun := some "2026-10-12", convFile := none, notesFile := none,
       episodeFile := none, tempClips := [] }, CycleResult.skipped) := by
  rfl

/-- The prior-day state and failing-synthesis invocation used as the
counterexample to claim C2. -/
def c2priorFS : FS :=
  { lastRun := some "2026-10-11",
    convFile := some [{ speaker := "Brian", text := "old" }],
    notesFile := some "old notes",
    episodeFile := some [{ speaker := "Brian", text := "old" }],
    tempClips := [] }

def c2run : FS × CycleResult :=
  generate_podcast "2026-10-12" []
    (ExtractOutcome.succeeds [{ speaker := "Jenny", text := "new" }]) false
    ["audio_0.mp3"] c2priorFS

/-- Claim C2 counterexample.  On a synthesis failure the cycle has NOT
written nothing: the conversation JSON and the show notes of the prior
successful run are already overwritten (they are written before
synthesis starts), and the clip file saved before the failure is still
on disk. -/
theorem c2_counterexample_partial_writes :
    c2run.2 = CycleResult.failedSynth ∧
    c2run.1.convFile ≠ c2priorFS.convFile ∧
    c2run.1.notesFile ≠ c2priorFS.notesFile ∧
    c2run.1.tempClips ≠ [] := by
  refine ⟨rfl, ?_, ?_, ?_⟩ <;> decide

/-- Claim C2 (amended).  If speech synthesis of any line fails, the
run aborts before merging: the episode audio and the RunMarker are
unchanged (the previously persisted episode stays servable), but the
conversation JSON and show notes are written before synthesis and so
already hold the new run's content, and clip files saved before the
failure remain on disk. -/
theorem c2_synthesis_failure_effects (today : String) (items : List PaperItem)
    (fs : FS) (lines : List DialogueLine) (done : List String)
    (hgate : fs.lastRun ≠ some today) :
    (generate_podcast today items (ExtractOutcome.succeeds lines) false done fs).2 =
      CycleResult.failedSynth ∧
    (generate_podcast today items (ExtractOutcome.succeeds lines) false done fs).1.episodeFile =
      fs.episodeFile ∧
    (generate_podcast today items (ExtractOutcome.succeeds lines) false done fs).1.lastRun =
      fs.lastRun ∧
    (generate_podcast today items (ExtractOutcome.succeeds lines) false done fs).1.convFile =
      some lines ∧
    (generate_podcast today items (ExtractOutcome.succeeds lines) false done fs).1.notesFile =
      some (generate_show_notes items) ∧
    (generate_podcast today items (ExtractOutcome.succeeds lines) false done fs).1.tempClips =
      fs.tempClips ++ done := by
  refine ⟨?_, ?_, ?_, ?_, ?_, ?_⟩ <;> simp [generate_podcast, hgate]

theorem c2_witness :
    ((some "2026-10-11" : Option String) ≠ some "2026-10-12") ∧
    (generate_podcast "2026-10-12" [] (ExtractOutcome.succeeds []) false []
        { lastRun := some "2026-10-11", convFile := none, notesFile := none,
          episodeFile := none, tempClips := [] }).2 = CycleResult.failedSynth :=
  ⟨by decide,
   (c2_synthesis_failure_effects "2026-10-12" []
      { lastRun := some "2026-10-11", convFile := none, notesFile := none,
        episodeFile := none, tempClips := [] } [] [] (by decide)).1⟩

/-- A model response that is exactly one balanced JSON object. -/
def c3input : List Char := "\x7b\"conversation\": []\x7d".data

/-- Claim C3 counterexample.  On a response whose single object has a
`conversation` field, the code returns the whole parsed object
(app.py line 85 returns `json.loads(json_match.group())`), which
differs from the `conversation` field the spec says is returned. -/
theorem c3_counterexample_whole_object :
    extract_from_response c3input = some (Json.jobj [("conversation", Json.jarr [])]) ∧
    extractConversationFieldSpec c3input = some (Json.jarr []) ∧
    extract_from_response c3input ≠ extractConversationFieldSpec c3input := by
  refine ⟨rfl, rfl, ?_⟩
  intro h
  have e1 : extract_from_response c3input =
      some (Json.jobj [("conversation", Json.jarr [])]) := rfl
  have e2 : extractConversationFieldSpec c3input = some (Json.jarr []) := rfl
  rw [e1, e2] at h
  injection h with h3
  exact Json.noConfusion h3

/-- Claim C3 (amended).  When the generator finds a balanced-brace
object (here: any fully matched pattern shape surrounded by non-brace
prose) and parses it successfully, the value it returns is the whole
parsed object; its `conversation` field is what the spec-worded
variant would return instead. -/
theorem c3_extraction_returns_whole_object (p1 p2 : List Char) (bs : List Block)
    (fields : List (String × Json))
    (h1 : braceFree p1 = true) (h2 : braceFree p2 = true)
    (h3 : goodBlocks bs = true)
    (h4 : jsonParse (renderObj bs) = some (Json.jobj fields)) :
    extract_from_response (p1 ++ (renderObj bs ++ p2)) = some (Json.jobj fields) ∧
    extractConversationFieldSpec (p1 ++ (renderObj bs ++ p2)) =
      Json.getField (Json.jobj fields) "conversation" := by
  have hr : reSearch (p1 ++ (renderObj bs ++ p2)) = some (renderObj bs) :=
    (reSearch_append_prose p1 _ h1).trans (reSearch_renderObj bs p2 h3)
  have hmain : extract_from_response (p1 ++ (renderObj bs ++ p2)) =
      some (Json.jobj fields) := by
    simp [extract_from_response, hr, h4]
  exact ⟨hmain, by simp [extractConversationFieldSpec, hmain]⟩

def c3blocks : List Block := "\"conversation\": []".data.map Block.ch

theorem c3_witness :
    braceFree "Model says: ".data = true ∧
    goodBlocks c3blocks = true ∧
    jsonParse (renderObj c3blocks) = some (Json.jobj [("conversation", Json.jarr [])]) ∧
    extract_from_response ("Model says: ".data ++ (renderObj c3blocks ++ [])) =
      some (Json.jobj [("conversation", Json.jarr [])]) :=
  ⟨rfl, rfl, rfl,
   (c3_extraction_returns_whole_object "Model says: ".data [] c3blocks
      [("conversation", Json.jarr [])] rfl rfl rfl rfl).1⟩

/-- A model response that is exactly one balanced JSON object, with
two levels of nesting inside the outer braces. -/
def c4input : List Char := "\x7b\"a\": \x7b\"b\": \x7b\x7d\x7d\x7d".data

/-- Claim C4 counterexample.  The source pattern only balances one
nested level, so on this response (exactly one balanced JSON object,
no surrounding prose) the regex matches the inner sub-object and the
extraction result differs from parsing the object directly. -/
theorem c4_counterexample_nested_object :
    extract_from_response c4input = some (Json.jobj [("b", Json.jobj [])]) ∧
    jsonParse c4input = some (Json.jobj [("a", Json.jobj [("b", Json.jobj [])])]) ∧
    extract_from_response c4input ≠ jsonParse c4input := by
  refine ⟨rfl, rfl, ?_⟩
  intro h
  have e1 : extract_from_response c4input = some (Json.jobj [("b", Json.jobj [])]) := rfl
  have e2 : jsonParse c4input =
      some (Json.jobj [("a", Json.jobj [("b", Json.jobj [])])]) := rfl
  rw [e1, e2] at h
  injection h with h3
  injection h3 with h4
  injection h4 with h5 h6
  injection h5 with h7 h8
  exact absurd h7 (by decide)

/-- Claim C4 (amended).  For every model response consisting of one
balanced JSON object whose braces nest at most one level (the shape
the source pattern matches in full, with no brace inside its strings),
surrounded by non-brace prose, the extraction finds exactly that
object and yields the same value as parsing it directly. -/
theorem c4_extraction_equals_direct_parse (p1 p2 : List Char) (bs : List Block)
    (v : Json)
    (h1 : braceFree p1 = true) (h2 : braceFree p2 = true)
    (h3 : goodBlocks bs = true)
    (h4 : jsonParse (renderObj bs) = some v) :
    reSearch (p1 ++ (renderObj bs ++ p2)) = some (renderObj bs) ∧
    extract_from_response (p1 ++ (renderObj bs ++ p2)) = some v := by
  have hr : reSearch (p1 ++ (renderObj bs ++ p2)) = some (renderObj bs) :=
    (reSearch_append_prose p1 _ h1).trans (reSearch_renderObj bs p2 h3)
  exact ⟨hr, by simp [extract_from_response, hr, h4]⟩

def c4promptProse : List Char := "Sure, here is the conversation: ".data

def c4blocks : List Block :=
  ("\"c\": ".data.map Block.ch) ++ [Block.nest "\"x\": 2".data]

def c4value : Json := Json.jobj [("c", Json.jobj [("x", Json.jnum 2)])]

theorem c4_witness :
    braceFree c4promptProse = true ∧
    braceFree [] = true ∧
    goodBlocks c4blocks = true ∧
    jsonParse (renderObj c4blocks) = some c4value ∧
    extract_from_response (c4promptProse ++ (renderObj c4blocks ++ [])) = some c4value :=
  ⟨rfl, rfl, rfl, rfl,
   (c4_extraction_equals_direct_parse c4promptProse [] c4blocks c4value
      rfl rfl rfl rfl).2⟩

/-- Claim C5 counterexample.  The claim covers both extraction
variants, but cloudflare_app.py's extract_conversation performs
exactly one attempt with no retry and no sleep, not max_attempts
(default 3). -/
theorem c5_counterexample_cf_single_attempt :
    countAttempts (extract_conversation_cf_events (fun _ => none)) = 1 ∧
    countSleeps (extract_conversation_cf_events (fun _ => none)) = 0 ∧
    (1 : Nat) ≠ 3 := by
  refine ⟨rfl, rfl, by decide⟩

/-- Claim C5 (amended).  In app.py, when every attempt fails,
extract_conversation performs exactly max_retries attempts (source
default 3), sleeps the hard-coded 2 seconds between consecutive
attempts and not after the last, and then raises; the attempt count is
a parameter but the delay is a literal.  The cloudflare_app.py variant
performs exactly one attempt with no sleep. -/
theorem c5_retry_loop_behaviour (resp : Nat → Option Json) (maxRetries : Nat)
    (hfail : ∀ n, resp n = none) (hpos : 1 ≤ maxRetries) :
    countAttempts (extract_conversation_events resp maxRetries) = maxRetries ∧
    countSleeps (extract_conversation_events resp maxRetries) = maxRetries - 1 ∧
    (∀ e ∈ extract_conversation_events resp maxRetries,
        isSleepEvent e = true → e = RunEvent.sleepFor 2) ∧
    (extract_conversation_events resp maxRetries).getLast? = some RunEvent.raised ∧
    countAttempts (extract_conversation_cf_events resp) = 1 ∧
    countSleeps (extract_conversation_cf_events resp) = 0 := by
  have htr : extract_conversation_events resp maxRetries = allFailTrace maxRetries 1 :=
    extractAttempts_allFail resp hfail maxRetries 1 maxRetries (by omega)
  have hcf : extract_conversation_cf_events resp =
      [RunEvent.attempt 1, RunEvent.raised] := by
    simp [extract_conversation_cf_events, hfail 1]
  rw [htr, hcf]
  exact ⟨countAttempts_allFailTrace maxRetries 1, countSleeps_allFailTrace maxRetries 1,
    sleeps_allFailTrace maxRetries 1, getLast_allFailTrace maxRetries 1 hpos, rfl, rfl⟩

theorem c5_witness :
    (∀ n : Nat, (fun _ : Nat => (none : Option Json)) n = none) ∧
    1 ≤ 3 ∧
    countAttempts (extract_conversation_events (fun _ => none) 3) = 3 :=
  ⟨fun _ => rfl, by decide,
   (c5_retry_loop_behaviour (fun _ => none) 3 (fun _ => rfl) (by decide)).1⟩

lemma generate_podcast_skip (today : String) (items : List PaperItem)
    (extract : ExtractOutcome) (synthOk : Bool) (done : List String) (fs : FS)
    (h : fs.lastRun = some today) :
    generate_podcast today items extract synthOk done fs = (fs, CycleResult.skipped) := by
  simp [generate_podcast, h]

/-- Claim C6.  Non-forced invocation with the marker equal to today
skips entirely with nothing touched; with a stale marker a full
successful cycle completes with all three artifacts written and the
marker set to today — after which a second same-day invocation skips
(generation happens exactly once per day) — and any non-completed
invocation leaves the marker unchanged (the marker is only written
after all artifacts are). -/
theorem c6_run_gate (today : String) (items : List PaperItem) (fs : FS)
    (lines : List DialogueLine) (extract : ExtractOutcome) (synthOk : Bool)
    (done : List String) :
    (fs.lastRun = some today →
       generate_podcast today items extract synthOk done fs = (fs, CycleResult.skipped)) ∧
    (fs.lastRun ≠ some today →
       ((generate_podcast today items (ExtractOutcome.succeeds lines) true done fs).2 =
          CycleResult.completed ∧
        (generate_podcast today items (ExtractOutcome.succeeds lines) true done fs).1.lastRun =
          some today ∧
        (generate_podcast today items (ExtractOutcome.succeeds lines) true done fs).1.convFile =
          some lines ∧
        (generate_podcast today items (ExtractOutcome.succeeds lines) true done fs).1.notesFile =
          some (generate_show_notes items) ∧
        (generate_podcast today items (ExtractOutcome.succeeds lines) true done fs).1.episodeFile =
          some lines ∧
        generate_podcast today items extract synthOk done
            (generate_podcast today items (ExtractOutcome.succeeds lines) true done fs).1 =
          ((generate_podcast today items (ExtractOutcome.succeeds lines) true done fs).1,
           CycleResult.skipped))) ∧
    ((generate_podcast today items extract synthOk done fs).2 ≠ CycleResult.completed →
       (generate_podcast today items extract synthOk done fs).1.lastRun = fs.lastRun) := by
  refine ⟨?_, ?_, ?_⟩
  · intro h
    simp [generate_podcast, h]
  · intro h
    have hlast : (generate_podcast today items (ExtractOutcome.succeeds lines) true done
        fs).1.lastRun = some today := by
      simp [generate_podcast, h]
    refine ⟨?_, hlast, ?_, ?_, ?_, ?_⟩
    · simp [generate_podcast, h]
    · simp [generate_podcast, h]
    · simp [generate_podcast, h]
    · simp [generate_podcast, h]
    · exact generate_podcast_skip today items extract synthOk done _ hlast
  · intro hne
    by_cases h : fs.lastRun = some today
    · simp [generate_podcast, h]
    · cases extract with
      | fails => simp [generate_podcast, h]
      | succeeds ls =>
        cases synthOk with
        | true =>
          exact absurd (by simp [generate_podcast, h]) hne
        | false =>
          simp [generate_podcast, h]

theorem c6_witness :
    ((none : Option String) ≠ some "2026-10-12") ∧
    (generate_podcast "2026-10-12" []
        (ExtractOutcome.succeeds [{ speaker := "Brian", text := "hi" }]) true []
        { lastRun := none, convFile := none, notesFile := none,
          episodeFile := none, tempClips := [] }).2 = CycleResult.completed :=
  ⟨by decide,
   ((c6_run_gate "2026-10-12" []
      { lastRun := none, convFile := none, notesFile := none,
        episodeFile := none, tempClips := [] }
      [{ speaker := "Brian", text := "hi" }] ExtractOutcome.fails false []).2.1
      (by decide)).1⟩

/-- Claim C7.  merge_audio_files concatenates the clips strictly in
input order with nothing inserted between (its result is exactly the
flattening of the clip list), and merging a single clip yields that
clip unchanged. -/
theorem c7_merge_concatenates_in_order (clips : List (List Int)) (a b c : List Int) :
    merge_audio_files clips = clips.flatten ∧
    merge_audio_files [a, b, c] = a ++ b ++ c ∧
    merge_audio_files [a] = a := by
  refine ⟨?_, ?_, ?_⟩
  · simpa using foldl_append_flatten clips []
  · simp [merge_audio_files]
  · simp [merge_audio_files]

/-- Claim C8.  The prompt contains every item's title, link and
description verbatim, embeds the literal template of the required
output shape, and an empty item list still yields the prompt with the
template embedded. -/
theorem c8_prompt_renders_items (t : String) (items : List PaperItem) :
    (∀ it, it ∈ items →
      containsSub it.title.data (build_prompt t items).data ∧
      containsSub it.link.data (build_prompt t items).data ∧
      containsSub it.description.data (build_prompt t items).data) ∧
    containsSub promptTemplate.data (build_prompt t items).data ∧
    containsSub promptTemplate.data (build_prompt t []).data := by
  refine ⟨?_, containsSub_template_prompt t items, containsSub_template_prompt t []⟩
  intro it hmem
  have hline : containsSub (paperLine it).data (paper_summaries items).data :=
    containsSub_joinNL (paperLine it) (items.map paperLine)
      (List.mem_map_of_mem paperLine hmem)
  have hsum := containsSub_summaries_prompt t items
  exact ⟨containsSub_trans (containsSub_trans (containsSub_paperLine_title it) hline) hsum,
    containsSub_trans (containsSub_trans (containsSub_paperLine_link it) hline) hsum,
    containsSub_trans (containsSub_trans (containsSub_paperLine_description it) hline) hsum⟩

theorem c8_witness :
    (({ title := "TitleOne", link := "LinkOne", description := "DescOne" } : PaperItem) ∈
       ([{ title := "TitleOne", link := "LinkOne", description := "DescOne" }] :
         List PaperItem)) ∧
    containsSub ("TitleOne" : String).data
      (build_prompt "feed"
        [{ title := "TitleOne", link := "LinkOne", description := "DescOne" }]).data :=
  ⟨by simp,
   ((c8_prompt_renders_items "feed"
      [{ title := "TitleOne", link := "LinkOne", description := "DescOne" }]).1
      { title := "TitleOne", link := "LinkOne", description := "DescOne" }
      (by simp)).1⟩

/-- Claim C9.  build_prompt ignores its first parameter entirely: the
prompt is a function of the items alone (the same holds verbatim for
the cloudflare_app.py copy of build_prompt, embedded by the same
definition). -/
theorem c9_prompt_independent_of_text (t1 t2 : String) (items : List PaperItem) :
    build_prompt t1 items = build_prompt t2 items := rfl

/-- Claim C10.  Voice selection is total on arbitrary speaker strings:
Ryan exactly for "Brian", Ava for every other string (no failure
path), and the synthesized clip list is index-aligned with the
conversation, one task per line with the line's text and the file name
audio_i.mp3. -/
theorem c10_voice_selection_total (conversation : List DialogueLine) :
    (generate_audio_parallel conversation).length = conversation.length ∧
    (∀ s : String, voiceFor s = "en-GB-RyanNeural" ↔ s = "Brian") ∧
    (∀ s : String, s ≠ "Brian" → voiceFor s = "en-US-AvaMultilingualNeural") ∧
    (∀ (i : Nat) (line : DialogueLine), conversation[i]? = some line →
      (generate_audio_parallel conversation)[i]? =
        some { outputFile := "audio_" ++ toString i ++ ".mp3",
               text := line.text, voice := voiceFor line.speaker }) := by
  refine ⟨genTasks_length conversation 0, ?_, ?_, ?_⟩
  · intro s
    by_cases h : s = "Brian"
    · simp [voiceFor, h]
    · simp [voiceFor, h]
  · intro s h
    simp [voiceFor, h]
  · intro i line hline
    have := genTasks_getElem conversation 0 i
    rw [generate_audio_parallel, this, hline]
    simp

theorem c10_witness :
    (([{ speaker := "Jenny", text := "hi" }] : List DialogueLine)[0]? =
       some { speaker := "Jenny", text := "hi" }) ∧
    (generate_audio_parallel [{ speaker := "Jenny", text := "hi" }])[0]? =
      some { outputFile := "audio_" ++ toString 0 ++ ".mp3",
             text := "hi", voice := voiceFor "Jenny" } :=
  ⟨rfl,
   (c10_voice_selection_total [{ speaker := "Jenny", text := "hi" }]).2.2.2 0
     { speaker := "Jenny", text := "hi" } rfl⟩
